import Mathlib

/-
Verification of the deployment-tracker core logic
(src/my-app/components/deployment-tracker.tsx).

The TypeScript component is shallowly embedded: the four change-detail
record types, the tagged Change union, the UserStory document, the
validation switch of handleAddChange, the read-modify-write operations
addChange / removeChange, story deletion removeUserStory, the session
state machine around onAuthStateChange / fetchUserStories, and the
derived query view (filteredStories, currentStories, page count).

Remote I/O is made explicit: the Supabase document store is a list of
story documents, and transport success or failure of each round trip is
a Boolean parameter of the operation, so that one Lean function computes
exactly the state transition the component performs for each outcome.
-/

namespace DT

/-- Detail record for a Field change, as in the source type FieldChange. -/
structure FieldChange where
  date : String
  apiName : String
  label : String
  fieldType : String
  note : String
  deriving DecidableEq, Repr

/-- Detail record for an LWC change, as in the source type LWCChange
(code is optional in the source type). -/
structure LWCChange where
  date : String
  componentName : String
  fileType : String
  code : Option String
  note : String
  deriving DecidableEq, Repr

/-- Detail record for a Profile change, as in the source type ProfileChange. -/
structure ProfileChange where
  date : String
  profile : String
  note : String
  deriving DecidableEq, Repr

/-- Access flags of a Permission change. -/
structure AccessFlags where
  read : Bool
  write : Bool
  deriving DecidableEq, Repr

/-- Detail record for a Permission change, as in the source type PermissionChange. -/
structure PermissionChange where
  date : String
  permissionSet : String
  permission : String
  access : AccessFlags
  note : String
  deriving DecidableEq, Repr

/-- The four change kinds of the source union type. -/
inductive ChangeType where
  | Field
  | LWC
  | Profile
  | Permission
  deriving DecidableEq, Repr

/-- Closed tagged union of the four detail shapes; the source stores this
in the details field of a Change. -/
inductive ChangeDetails where
  | field (d : FieldChange)
  | lwc (d : LWCChange)
  | profile (d : ProfileChange)
  | permission (d : PermissionChange)
  deriving DecidableEq, Repr

/-- One change record: id, kind tag, and kind-specific details,
as in the source type Change. -/
structure Change where
  id : String
  type : ChangeType
  details : ChangeDetails
  deriving DecidableEq, Repr

/-- One story document: identity, owner, free-text fields and the embedded
ordered change list, as in the source type UserStory. -/
structure UserStory where
  id : String
  userId : String
  number : String
  title : String
  description : String
  date : String
  changes : List Change
  deriving DecidableEq, Repr

/-- The form state held by the ChangeForm component: the selected change
kind plus every input field (JS empty string denotes an unset text input,
the two access checkboxes are Booleans). -/
structure ChangeFormState where
  changeType : ChangeType
  date : String
  fieldApiName : String
  fieldLabel : String
  fieldType : String
  lwcComponentName : String
  lwcFileType : String
  lwcCode : String
  profile : String
  permissionSet : String
  permission : String
  readAccess : Bool
  writeAccess : Bool
  note : String
  deriving DecidableEq, Repr

/-- Initial ChangeForm state: every useState default of the source
(text fields empty, both access checkboxes false, kind Field). -/
def initialChangeForm : ChangeFormState :=
  { changeType := .Field
    date := ""
    fieldApiName := ""
    fieldLabel := ""
    fieldType := ""
    lwcComponentName := ""
    lwcFileType := ""
    lwcCode := ""
    profile := ""
    permissionSet := ""
    permission := ""
    readAccess := false
    writeAccess := false
    note := ""}

/-- Validation part of handleAddChange: the date check followed by the
switch on changeType. JS truthiness of a string is being nonempty, so
each !x test on a text input is equality with the empty string. On
success it builds the details record exactly as the source does. -/
def validateChange (f : ChangeFormState) : Except String ChangeDetails :=
  if f.date = "" then
    .error "Please select a date for the change."
  else
    match f.changeType with
    | .Field =>
      if f.fieldApiName = "" || f.fieldLabel = "" || f.fieldType = "" then
        .error "Please fill in all required fields for Field Change."
      else
        .ok (.field ⟨f.date, f.fieldApiName, f.fieldLabel, f.fieldType, f.note⟩)
    | .LWC =>
      if f.lwcComponentName = "" || f.lwcFileType = "" then
        .error "Please fill in all required fields for LWC Change."
      else
        .ok (.lwc ⟨f.date, f.lwcComponentName, f.lwcFileType, some f.lwcCode, f.note⟩)
    | .Profile =>
      if f.profile = "" then
        .error "Please enter a profile name."
      else
        .ok (.profile ⟨f.date, f.profile, f.note⟩)
    | .Permission =>
      if f.permissionSet = "" || f.permission = "" then
        .error "Please fill in all required fields for Permission Change."
      else
        .ok (.permission ⟨f.date, f.permissionSet, f.permission,
          ⟨f.readAccess, f.writeAccess⟩, f.note⟩)

/-- Combined application state: the remote document store (the
user_stories table), the local story cache (the userStories state) and
the transient error banner. -/
structure AppState where
  remote : List UserStory
  userStories : List UserStory
  errorMessage : Option String
  deriving DecidableEq, Repr

/-- Embedding of select changes eq id storyId single: the rows matching
the id filter, which must be exactly one for single() to succeed; on
success yields the changes field of that row. -/
def selectChangesSingle (store : List UserStory) (storyId : String) :
    Option (List Change) :=
  match store.filter (fun s => s.id = storyId) with
  | [st] => some st.changes
  | _ => none

/-- Embedding of update changes eq id storyId: overwrite the changes
field of every row whose id matches (a full replace of the field). -/
def updateStoreChanges (store : List UserStory) (storyId : String)
    (changes : List Change) : List UserStory :=
  store.map (fun s => if s.id = storyId then { s with changes := changes } else s)

/-- Outcome of one change-log operation: the application state after the
call, the updated changes list the source reconciles the local cache
with (none when the operation failed before that point), and how many
remote round trips were issued. -/
structure OpResult where
  state : AppState
  returned : Option (List Change)
  remoteCalls : Nat
  deriving DecidableEq, Repr

/-- Embedding of addChange: fetch the current changes of the story
(one remote call; fetchOk models transport success and single() needs
exactly one matching row), on failure set the banner and stop; otherwise
append one new record at the end, write the whole list back (second
remote call; updateOk models its success), and on success reconcile the
local cache by mapping the story with that id to the new list. -/
def addChange (storyId : String) (changeType : ChangeType)
    (changeDetails : ChangeDetails) (newId : String) (fetchOk updateOk : Bool)
    (s : AppState) : OpResult :=
  match (if fetchOk then selectChangesSingle s.remote storyId else none) with
  | none =>
    ⟨{ s with errorMessage := some "Error fetching user story" }, none, 1⟩
  | some current =>
    let updatedChanges :=
      current ++ [{ id := newId, type := changeType, details := changeDetails }]
    if updateOk then
      ⟨{ remote := updateStoreChanges s.remote storyId updatedChanges
         userStories := s.userStories.map (fun story =>
           if story.id = storyId then { story with changes := updatedChanges }
           else story)
         errorMessage := s.errorMessage }, some updatedChanges, 2⟩
    else
      ⟨{ s with errorMessage := some "Error adding change" }, none, 2⟩

/-- Embedding of removeChange: fetch the current changes of the story,
filter out every entry whose id equals changeId, write the filtered list
back and on success reconcile the local cache, with the same two failure
points as addChange. -/
def removeChange (storyId : String) (changeId : String) (fetchOk updateOk : Bool)
    (s : AppState) : OpResult :=
  match (if fetchOk then selectChangesSingle s.remote storyId else none) with
  | none =>
    ⟨{ s with errorMessage := some "Error fetching user story" }, none, 1⟩
  | some current =>
    let updatedChanges := current.filter (fun change => change.id ≠ changeId)
    if updateOk then
      ⟨{ remote := updateStoreChanges s.remote storyId updatedChanges
         userStories := s.userStories.map (fun story =>
           if story.id = storyId then { story with changes := updatedChanges }
           else story)
         errorMessage := s.errorMessage }, some updatedChanges, 2⟩
    else
      ⟨{ s with errorMessage := some "Error removing change" }, none, 2⟩

/-- Embedding of handleAddChange: validate the form first; on a
validation error set the banner and return without any remote call;
otherwise hand the built details record to addChange. -/
def handleAddChange (storyId : String) (f : ChangeFormState) (newId : String)
    (fetchOk updateOk : Bool) (s : AppState) : OpResult :=
  match validateChange f with
  | .error msg => ⟨{ s with errorMessage := some msg }, none, 0⟩
  | .ok details => addChange storyId f.changeType details newId fetchOk updateOk s

/-- Outcome of removeUserStory: store, cache, expanded-story list and banner. -/
structure DeleteResult where
  remote : List UserStory
  userStories : List UserStory
  expandedStories : List String
  errorMessage : Option String
  deriving DecidableEq, Repr

/-- Embedding of removeUserStory: delete eq id removes every stored row
whose id matches (the embedded changes go with the document); a delete
matching no row is still a success — the store only reports transport
failure, modelled by transportOk. On success the local cache and the
expanded list are filtered; on failure the banner is set and nothing
local changes. -/
def removeUserStory (id : String) (transportOk : Bool)
    (remote userStories : List UserStory) (expandedStories : List String) :
    DeleteResult :=
  if transportOk then
    { remote := remote.filter (fun s => s.id ≠ id)
      userStories := userStories.filter (fun story => story.id ≠ id)
      expandedStories := expandedStories.filter (fun storyId => storyId ≠ id)
      errorMessage := none }
  else
    { remote := remote
      userStories := userStories
      expandedStories := expandedStories
      errorMessage := some "Error removing user story" }

/-- Session state the component holds across auth events: the current
user (their id) and the local story cache (the userStories state). -/
structure SessionState where
  currentUser : Option String
  userStories : List UserStory
  deriving DecidableEq, Repr

/-- Events acting on the session state: an auth-state change (sign-in
delivers some user id, sign-out delivers none — the handler only calls
setCurrentUser) and the completion of a fetchUserStories round trip
carrying the store rows and whether the select succeeded. -/
inductive SessionEvent where
  | authChange (user : Option String)
  | fetchStories (fetchOk : Bool) (storeRows : List UserStory)
  deriving DecidableEq, Repr

/-- One session transition, as the source performs it: authChange only
replaces currentUser (the story cache is left as it is); fetchStories
returns immediately when no user is signed in, and on a successful
select replaces the cache with the store rows whose userId equals the
current user id (the eq filter of the query); a failed select only logs
and changes nothing. -/
def stepSession (s : SessionState) (e : SessionEvent) : SessionState :=
  match e with
  | .authChange u => { s with currentUser := u }
  | .fetchStories fetchOk storeRows =>
    match s.currentUser with
    | none => s
    | some uid =>
      if fetchOk then
        { s with userStories := storeRows.filter (fun st => st.userId = uid) }
      else s

/-- Run a session from the initial component state (no user, empty cache). -/
def runSession (events : List SessionEvent) : SessionState :=
  events.foldl stepSession { currentUser := none, userStories := [] }

/-- Embedding of the JS call number.includes(query): query occurs in
number as a contiguous run of characters (case-sensitive). -/
def jsIncludes (s query : String) : Bool :=
  decide (query.data <:+: s.data)

/-- Embedding of the filteredStories derivation: keep the stories whose
number contains the filter string; a JS string is truthy exactly when it
is nonempty, so an empty filter keeps everything. -/
def filteredStories (userStories : List UserStory) (filterNumber : String) :
    List UserStory :=
  userStories.filter (fun story =>
    if filterNumber ≠ "" then jsIncludes story.number filterNumber else true)

/-- Embedding of the currentStories derivation:
indexOfLastStory = currentPage * storiesPerPage,
indexOfFirstStory = indexOfLastStory - storiesPerPage, and
slice(first, last) = drop first, then take (last - first). Faithful for
currentPage ≥ 1, where both indices are nonnegative as in the source. -/
def currentStories (filtered : List UserStory)
    (currentPage storiesPerPage : Nat) : List UserStory :=
  let indexOfLastStory := currentPage * storiesPerPage
  let indexOfFirstStory := indexOfLastStory - storiesPerPage
  (filtered.drop indexOfFirstStory).take (indexOfLastStory - indexOfFirstStory)

/-- Embedding of Math.ceil(n / storiesPerPage) over naturals, the page
count the source computes for the pagination buttons: for a positive
divisor, (n + d - 1) / d is exactly the ceiling of n / d. -/
def pageCount (n storiesPerPage : Nat) : Nat :=
  (n + storiesPerPage - 1) / storiesPerPage

/-- Modelled from the spec: pageCount(n, pageSize) = ceil(n / pageSize),
read literally as the ceiling of the rational n / pageSize. Stated
separately from pageCount so the code formula can be compared with it. -/
def pageCountSpec (n pageSize : Nat) : Nat :=
  ⌈(n : ℚ) / (pageSize : ℚ)⌉₊

/-- Atomic steps of two interleaved read-modify-write append calls on
the same story: each call first reads the stored changes array, then
writes back its extended copy. -/
inductive RMWAction where
  | read1
  | write1
  | read2
  | write2
  deriving DecidableEq, Repr

/-- State of the interleaving experiment: the stored changes array of
the story, and the value each call has read so far (none before its
read happened). -/
structure RMWState where
  store : List Change
  readVal1 : Option (List Change)
  readVal2 : Option (List Change)
  deriving DecidableEq, Repr

/-- One atomic step: a read copies the current store into the calling
append; a write replaces the store wholesale with the read value plus
the new entry of that call, exactly what update changes does; a write before its
own read is a no-op since the call cannot have reached its write yet. -/
def rmwStep (new1 new2 : Change) (s : RMWState) (a : RMWAction) : RMWState :=
  match a with
  | .read1 => { s with readVal1 := some s.store }
  | .write1 =>
    match s.readVal1 with
    | some v => { s with store := v ++ [new1] }
    | none => s
  | .read2 => { s with readVal2 := some s.store }
  | .write2 =>
    match s.readVal2 with
    | some v => { s with store := v ++ [new2] }
    | none => s

/-- Run an interleaving of the two append calls from a store holding
the given current changes. -/
def runRMW (new1 new2 : Change) (current : List Change)
    (actions : List RMWAction) : RMWState :=
  actions.foldl (rmwStep new1 new2) { store := current, readVal1 := none, readVal2 := none }

/-- Sample Profile detail record used by concrete instances. -/
def sampleProfileDetails : ChangeDetails :=
  .profile ⟨"2024-01-01", "Admin", ""⟩

/-- Concrete change with id 100. -/
def changeZero : Change :=
  ⟨"100", .Profile, sampleProfileDetails⟩

/-- Concrete change with id 101. -/
def changeOne : Change :=
  ⟨"101", .Profile, sampleProfileDetails⟩

/-- Concrete change with id 102. -/
def changeTwo : Change :=
  ⟨"102", .Profile, sampleProfileDetails⟩

/-- Concrete story with an empty change list. -/
def storyOne : UserStory :=
  ⟨"s1", "userA", "US-1", "Add field", "", "2024-01-01", []⟩

/-- Concrete story holding one change. -/
def storyWithChange : UserStory :=
  ⟨"s2", "userA", "US-2", "Edit", "", "2024-01-01", [changeZero]⟩

/-- Application state whose store and cache hold storyOne. -/
def sampleAppState : AppState :=
  ⟨[storyOne], [storyOne], none⟩

/-- Application state whose store and cache hold storyWithChange. -/
def roundTripState : AppState :=
  ⟨[storyWithChange], [storyWithChange], none⟩

/-- Permission form with date, permissionSet and permission all filled. -/
def fullPermissionForm : ChangeFormState :=
  { initialChangeForm with
    changeType := .Permission
    date := "2024-01-03"
    permissionSet := "PS"
    permission := "ApiEnabled" }

/-- Permission form with a date and a permissionSet but no permission. -/
def permissionOnlySetForm : ChangeFormState :=
  { initialChangeForm with
    changeType := .Permission
    date := "2024-01-02"
    permissionSet := "PS" }

/-- The details record validateChange builds from fullPermissionForm. -/
def permDetails : ChangeDetails :=
  .permission ⟨"2024-01-03", "PS", "ApiEnabled", ⟨false, false⟩, ""⟩

/-- Session trace: user A signs in, their stories are fetched, they sign
out, then user B signs in (before any fetch for B completes). -/
def staleCacheTrace : List SessionEvent :=
  [.authChange (some "userA"), .fetchStories true [storyOne],
   .authChange none, .authChange (some "userB")]

/-- C10: filteredStories keeps exactly the stories whose number contains
the query as a case-sensitive substring, as a stable filter preserving
input order; the empty query returns all stories in original order; and
applying the filter twice with the same query equals applying it once. -/
theorem filteredStories_substring_spec (stories : List UserStory) (q : String) :
    filteredStories stories q =
      stories.filter (fun st => jsIncludes st.number q) ∧
    (filteredStories stories q).Sublist stories ∧
    filteredStories stories "" = stories ∧
    filteredStories (filteredStories stories q) q = filteredStories stories q := by
  have hmain : ∀ (l : List UserStory),
      filteredStories l q = l.filter (fun st => jsIncludes st.number q) := by
    intro l
    by_cases hq : q = ""
    · subst hq
      unfold filteredStories
      simp [jsIncludes, List.nil_infix]
    · unfold filteredStories
      simp [hq]
  refine ⟨hmain stories, ?_, ?_, ?_⟩
  · exact List.filter_sublist stories
  · unfold filteredStories
    simp [jsIncludes, List.nil_infix, List.filter_true]
  · rw [hmain stories, hmain (stories.filter (fun st => jsIncludes st.number q)),
      List.filter_filter]
    simp only [Bool.and_self]

/-- Helper: the natural-number formula of pageCount equals the rational
ceiling of n / s whenever the page size s is positive. -/
theorem pageCount_eq_pageCountSpec (n s : Nat) (hs : 0 < s) :
    pageCount n s = pageCountSpec n s := by
  unfold pageCount pageCountSpec
  have hsq : (0 : ℚ) < (s : ℚ) := by exact_mod_cast hs
  apply le_antisymm
  · -- the code formula is at most the ceiling
    have hk : n ≤ s * ⌈(n : ℚ) / (s : ℚ)⌉₊ := by
      have h := Nat.le_ceil ((n : ℚ) / (s : ℚ))
      rw [div_le_iff₀ hsq] at h
      have h2 : (n : ℚ) ≤ ((s * ⌈(n : ℚ) / (s : ℚ)⌉₊ : ℕ) : ℚ) := by
        push_cast
        linarith
      exact_mod_cast h2
    have hmul : (⌈(n : ℚ) / (s : ℚ)⌉₊ + 1) * s =
        s * ⌈(n : ℚ) / (s : ℚ)⌉₊ + s := by ring
    have hlt : n + s - 1 < (⌈(n : ℚ) / (s : ℚ)⌉₊ + 1) * s := by
      rw [hmul]
      omega
    have := (Nat.div_lt_iff_lt_mul hs).mpr hlt
    omega
  · -- the ceiling is at most the code formula
    rw [Nat.ceil_le, div_le_iff₀ hsq]
    have hq := Nat.div_add_mod (n + s - 1) s
    have hr := Nat.mod_lt (n + s - 1) hs
    have hn : n ≤ ((n + s - 1) / s) * s := by
      rw [Nat.mul_comm]
      omega
    calc (n : ℚ) ≤ ((((n + s - 1) / s) * s : ℕ) : ℚ) := by exact_mod_cast hn
      _ = (((n + s - 1) / s : ℕ) : ℚ) * (s : ℚ) := by push_cast; ring

/-- C9: currentStories returns exactly the slice of indices from
(currentPage - 1) * storiesPerPage up to currentPage * storiesPerPage
of the filtered list (1-based page number); a page beyond the last page
yields the empty list rather than an error; and pageCount computes the
ceiling of n / storiesPerPage for every n. -/
theorem currentStories_pageCount_spec (l : List UserStory)
    (storiesPerPage currentPage n : Nat) (hs : 0 < storiesPerPage)
    (hp : 1 ≤ currentPage) :
    (∀ i : Nat, (currentStories l currentPage storiesPerPage)[i]? =
      if i < storiesPerPage then l[(currentPage - 1) * storiesPerPage + i]?
      else none) ∧
    (pageCount l.length storiesPerPage < currentPage →
      currentStories l currentPage storiesPerPage = []) ∧
    pageCount n storiesPerPage = pageCountSpec n storiesPerPage := by
  have hle : storiesPerPage ≤ currentPage * storiesPerPage := by
    calc storiesPerPage = 1 * storiesPerPage := (Nat.one_mul _).symm
      _ ≤ currentPage * storiesPerPage := Nat.mul_le_mul_right _ hp
  have hfirst : currentPage * storiesPerPage - storiesPerPage =
      (currentPage - 1) * storiesPerPage := (Nat.sub_one_mul _ _).symm
  have hamount : currentPage * storiesPerPage -
      (currentPage * storiesPerPage - storiesPerPage) = storiesPerPage :=
    Nat.sub_sub_self hle
  refine ⟨?_, ?_, pageCount_eq_pageCountSpec n storiesPerPage hs⟩
  · intro i
    show (List.take
        (currentPage * storiesPerPage - (currentPage * storiesPerPage - storiesPerPage))
        (List.drop (currentPage * storiesPerPage - storiesPerPage) l))[i]? = _
    rw [hamount, hfirst, List.getElem?_take]
    by_cases hi : i < storiesPerPage
    · simp [hi, List.getElem?_drop]
    · simp [hi]
  · intro hbeyond
    unfold pageCount at hbeyond
    have hlt : l.length + storiesPerPage - 1 < currentPage * storiesPerPage := by
      exact (Nat.div_lt_iff_lt_mul hs).mp hbeyond
    have hdroplen : l.length ≤ currentPage * storiesPerPage - storiesPerPage := by
      omega
    show List.take
        (currentPage * storiesPerPage - (currentPage * storiesPerPage - storiesPerPage))
        (List.drop (currentPage * storiesPerPage - storiesPerPage) l) = []
    rw [List.drop_eq_nil_of_le hdroplen]
    simp

/-- Witness for C9: with page size 1, page 3 of a two-story list is
empty, and the page count of 5 stories equals the ceiling of 5 / 1. -/
theorem currentStories_pageCount_spec_witness :
    currentStories [storyOne, storyWithChange] 3 1 = [] ∧
    pageCount 5 1 = pageCountSpec 5 1 := by
  have h := currentStories_pageCount_spec [storyOne, storyWithChange] 1 3 5
    (by decide) (by decide)
  exact ⟨h.2.1 (by decide), h.2.2⟩

/-- Counterexample for C5: a Permission draft with a date and a
permissionSet but no permission. The claim says one of
permissionSet/permission present suffices, so validation should accept
this draft; the source rejects it, because handleAddChange requires both
fields to be nonempty. -/
theorem validateChange_permission_counterexample :
    permissionOnlySetForm.date ≠ "" ∧
    permissionOnlySetForm.permissionSet ≠ "" ∧
    validateChange permissionOnlySetForm =
      .error "Please fill in all required fields for Permission Change." := by
  refine ⟨by decide, by decide, rfl⟩

/-- C5 amended: for Permission drafts both access flags default to false
when left unset (the form state starts with both checkboxes false), and
validation succeeds exactly when date, permissionSet and permission are
all nonempty — both of permissionSet and permission are required, not
just one of them. -/
theorem validateChange_permission_amended :
    initialChangeForm.readAccess = false ∧
    initialChangeForm.writeAccess = false ∧
    ∀ f : ChangeFormState, f.changeType = .Permission →
      ((validateChange f).isOk = true ↔
        (f.date ≠ "" ∧ f.permissionSet ≠ "" ∧ f.permission ≠ "")) ∧
      (f.date ≠ "" → f.permissionSet ≠ "" → f.permission ≠ "" →
        validateChange f = .ok (.permission ⟨f.date, f.permissionSet,
          f.permission, ⟨f.readAccess, f.writeAccess⟩, f.note⟩)) := by
  refine ⟨rfl, rfl, ?_⟩
  intro f hf
  constructor
  · unfold validateChange
    rw [hf]
    by_cases hd : f.date = "" <;> by_cases hps : f.permissionSet = "" <;>
      by_cases hp : f.permission = "" <;>
      simp [hd, hps, hp, Except.isOk, Except.toBool]
  · intro hd hps hp
    unfold validateChange
    rw [hf]
    simp [hd, hps, hp]

/-- Witness for C5 amended: a fully filled Permission draft validates to
the Permission details record with both access flags false. -/
theorem validateChange_permission_amended_witness :
    validateChange fullPermissionForm = .ok permDetails := by
  have h := (validateChange_permission_amended.2.2 fullPermissionForm rfl).2
    (by decide) (by decide) (by decide)
  exact h

/-- C6 failing run: user A signs in, the fetch fills the cache with the
story of A, A signs out, user B signs in. The sign-out transition only
sets currentUser to none — the source never clears the userStories
state — so after the sign-out the cache still holds the story of A, and
after B signs in (before any fetch for B completes) the session of B
still holds a story owned by A, violating both the discard-on-sign-out
requirement and the ownership invariant over reachable states. -/
theorem signOut_retains_prior_user_cache :
    (runSession [.authChange (some "userA"), .fetchStories true [storyOne],
      .authChange none]).currentUser = none ∧
    (runSession [.authChange (some "userA"), .fetchStories true [storyOne],
      .authChange none]).userStories = [storyOne] ∧
    (runSession staleCacheTrace).currentUser = some "userB" ∧
    (runSession staleCacheTrace).userStories = [storyOne] ∧
    storyOne.userId = "userA" ∧
    storyOne.userId ≠ "userB" := by
  refine ⟨rfl, by decide, rfl, by decide, rfl, by decide⟩

/-- Counterexample for C7: deleting an id that matches no stored story
succeeds silently — the banner stays empty and the store is unchanged —
instead of failing with NotFound as the claim states. The source delete
also filters only on the story id, never on the owner id. -/
theorem removeUserStory_missing_counterexample :
    (removeUserStory "missing" true [storyOne] [storyOne] []).errorMessage =
      none ∧
    (removeUserStory "missing" true [storyOne] [storyOne] []).remote =
      [storyOne] ∧
    ∀ st ∈ [storyOne], st.id ≠ "missing" := by
  refine ⟨rfl, by decide, by decide⟩

/-- C7 amended: delete removes from the store exactly the stories whose
id matches (their embedded changes disappear with the document), reports
no error on transport success, and is an idempotent no-op when no story
with that id exists — it does not fail with NotFound, and it does not
consult the ownerId. -/
theorem removeUserStory_amended (id : String)
    (remote userStories : List UserStory) (expanded : List String) :
    (removeUserStory id true remote userStories expanded).remote =
      remote.filter (fun s => s.id ≠ id) ∧
    (removeUserStory id true remote userStories expanded).errorMessage =
      none ∧
    (∀ st, st ∈ (removeUserStory id true remote userStories expanded).remote ↔
      st ∈ remote ∧ st.id ≠ id) ∧
    ((∀ st ∈ remote, st.id ≠ id) →
      (removeUserStory id true remote userStories expanded).remote = remote) := by
  refine ⟨rfl, rfl, ?_, ?_⟩
  · intro st
    show st ∈ remote.filter (fun s => s.id ≠ id) ↔ st ∈ remote ∧ st.id ≠ id
    rw [List.mem_filter]
    simp
  · intro hnone
    show remote.filter (fun s => s.id ≠ id) = remote
    rw [List.filter_eq_self]
    intro st hst
    simpa using hnone st hst

/-- Witness for C7 amended: deleting the id of storyOne from a store
holding storyOne and storyWithChange leaves exactly storyWithChange, and
deleting a missing id from that store leaves it unchanged. -/
theorem removeUserStory_amended_witness :
    (removeUserStory "s1" true [storyOne, storyWithChange] [] []).remote =
      [storyWithChange] ∧
    (removeUserStory "zzz" true [storyOne, storyWithChange] [] []).remote =
      [storyOne, storyWithChange] := by
  constructor
  · have h := (removeUserStory_amended "s1" [storyOne, storyWithChange] [] []).1
    rw [h]
    decide
  · exact (removeUserStory_amended "zzz" [storyOne, storyWithChange] [] []).2.2.2
      (by decide)

/-- C8: in the interleaving where the second append reads before the
first append writes, both calls read the same current list; the second
write then replaces the array wholesale, so the final stored array is
the current list plus only the second new entry — the first addition is
silently lost (its id appears nowhere in the final array when it was
fresh and distinct from the second id). -/
theorem interleaved_appends_lose_first_update (current : List Change)
    (new1 new2 : Change) (h1 : ∀ c ∈ current, c.id ≠ new1.id)
    (h2 : new2.id ≠ new1.id) :
    (runRMW new1 new2 current
      [.read1, .read2, .write1, .write2]).readVal1 = some current ∧
    (runRMW new1 new2 current
      [.read1, .read2, .write1, .write2]).readVal2 = some current ∧
    (runRMW new1 new2 current
      [.read1, .read2, .write1, .write2]).store = current ++ [new2] ∧
    new2 ∈ (runRMW new1 new2 current
      [.read1, .read2, .write1, .write2]).store ∧
    ∀ c ∈ (runRMW new1 new2 current
      [.read1, .read2, .write1, .write2]).store, c.id ≠ new1.id := by
  refine ⟨rfl, rfl, rfl, ?_, ?_⟩
  · show new2 ∈ current ++ [new2]
    simp
  · show ∀ c ∈ current ++ [new2], c.id ≠ new1.id
    intro c hc
    rcases List.mem_append.mp hc with hmem | hmem
    · exact h1 c hmem
    · rw [List.mem_singleton.mp hmem]
      exact h2

/-- Witness for C8: with one existing change and two fresh appends with
distinct ids, the interleaved run stores only the second new entry. -/
theorem interleaved_appends_lose_first_update_witness :
    (runRMW changeOne changeTwo [changeZero]
      [.read1, .read2, .write1, .write2]).store = [changeZero, changeTwo] ∧
    ∀ c ∈ (runRMW changeOne changeTwo [changeZero]
      [.read1, .read2, .write1, .write2]).store, c.id ≠ changeOne.id := by
  have h := interleaved_appends_lose_first_update [changeZero] changeOne changeTwo
    (by decide) (by decide)
  exact ⟨h.2.2.1, h.2.2.2.2⟩

/-- C1: handleAddChange validates first — on a validation error it sets
the banner and issues zero remote calls — and on success with a
successful fetch and write it appends exactly one new record with the
fresh id at the end of the fetched list (existing entries and their
order untouched), writes that whole list back to the store, reconciles
the local cache with it and returns it. -/
theorem handleAddChange_append_spec (storyId : String) (f : ChangeFormState)
    (newId : String) (fetchOk updateOk : Bool) (s : AppState) :
    (∀ msg, validateChange f = .error msg →
      handleAddChange storyId f newId fetchOk updateOk s =
        ⟨{ s with errorMessage := some msg }, none, 0⟩) ∧
    (∀ details current, validateChange f = .ok details →
      fetchOk = true → updateOk = true →
      selectChangesSingle s.remote storyId = some current →
      handleAddChange storyId f newId fetchOk updateOk s =
        ⟨{ remote := updateStoreChanges s.remote storyId
             (current ++ [{ id := newId, type := f.changeType, details := details }])
           userStories := s.userStories.map (fun story =>
             if story.id = storyId then
               { story with changes := current ++
                   [{ id := newId, type := f.changeType, details := details }] }
             else story)
           errorMessage := s.errorMessage },
         some (current ++
           [{ id := newId, type := f.changeType, details := details }]), 2⟩) := by
  constructor
  · intro msg hmsg
    unfold handleAddChange
    rw [hmsg]
  · intro details current hok hfetch hupdate hsel
    subst hfetch
    subst hupdate
    unfold handleAddChange
    rw [hok]
    unfold addChange
    rw [if_pos rfl, hsel]
    rfl

/-- Witness for C1: the form with an empty date yields a validation
error and zero remote calls, and a fully filled Permission form appended
to storyOne yields exactly the singleton list holding the new record. -/
theorem handleAddChange_append_spec_witness :
    handleAddChange "s1" initialChangeForm "id1" true true sampleAppState =
      ⟨{ sampleAppState with
           errorMessage := some "Please select a date for the change." },
        none, 0⟩ ∧
    (handleAddChange "s1" fullPermissionForm "id1" true true
      sampleAppState).returned = some [⟨"id1", .Permission, permDetails⟩] := by
  constructor
  · exact (handleAddChange_append_spec "s1" initialChangeForm "id1" true true
      sampleAppState).1 "Please select a date for the change." rfl
  · have h := (handleAddChange_append_spec "s1" fullPermissionForm "id1" true true
      sampleAppState).2 permDetails [] rfl rfl rfl rfl
    exact congrArg OpResult.returned h

/-- C2: when the remote read fails (transport failure or single() not
finding exactly one row) or the remote write fails, both addChange and
removeChange set the error banner and leave the local story cache and
the remote store exactly as they were — no partial update occurs. -/
theorem changeLog_failure_preserves_local_state (storyId changeId newId : String)
    (changeType : ChangeType) (d : ChangeDetails) (fetchOk updateOk : Bool)
    (s : AppState) :
    ((if fetchOk then selectChangesSingle s.remote storyId else none) = none →
      (addChange storyId changeType d newId fetchOk updateOk s).state =
        { s with errorMessage := some "Error fetching user story" } ∧
      (removeChange storyId changeId fetchOk updateOk s).state =
        { s with errorMessage := some "Error fetching user story" }) ∧
    (updateOk = false →
      (addChange storyId changeType d newId fetchOk updateOk s).state.userStories =
        s.userStories ∧
      (addChange storyId changeType d newId fetchOk updateOk s).state.remote =
        s.remote ∧
      (removeChange storyId changeId fetchOk updateOk s).state.userStories =
        s.userStories ∧
      (removeChange storyId changeId fetchOk updateOk s).state.remote =
        s.remote ∧
      (∀ current,
        (if fetchOk then selectChangesSingle s.remote storyId else none) =
          some current →
        (addChange storyId changeType d newId fetchOk updateOk s).state.errorMessage =
          some "Error adding change" ∧
        (removeChange storyId changeId fetchOk updateOk s).state.errorMessage =
          some "Error removing change")) := by
  constructor
  · intro hnone
    unfold addChange removeChange
    rw [hnone]
    exact ⟨rfl, rfl⟩
  · intro hupdate
    subst hupdate
    unfold addChange removeChange
    cases hsel : (if fetchOk then selectChangesSingle s.remote storyId else none) with
    | none =>
      refine ⟨rfl, rfl, rfl, rfl, ?_⟩
      intro current hcur
      exact absurd hcur (by simp)
    | some current =>
      refine ⟨rfl, rfl, rfl, rfl, ?_⟩
      intro cur hcur
      exact ⟨rfl, rfl⟩

/-- Witness for C2: against sampleAppState, a failed fetch leaves the
state holding only the fetch banner, and a failed write leaves the
cache and the store untouched with the write banner set. -/
theorem changeLog_failure_preserves_local_state_witness :
    (addChange "s1" .Profile sampleProfileDetails "id1" false true
      sampleAppState).state =
      { sampleAppState with errorMessage := some "Error fetching user story" } ∧
    (removeChange "s1" "100" true false sampleAppState).state.userStories =
      sampleAppState.userStories ∧
    (removeChange "s1" "100" true false sampleAppState).state.errorMessage =
      some "Error removing change" := by
  have hfetch := (changeLog_failure_preserves_local_state "s1" "100" "id1"
    .Profile sampleProfileDetails false true sampleAppState).1 rfl
  have hupd := (changeLog_failure_preserves_local_state "s1" "100" "id1"
    .Profile sampleProfileDetails true false sampleAppState).2 rfl
  exact ⟨hfetch.1, hupd.2.2.1, (hupd.2.2.2.2 [] rfl).2⟩

/-- C4: removeChange returns the fetched current list with every entry
matching changeId filtered out (order of the survivors preserved as a
stable filter), writes exactly that list back to the store, and when no
entry matches the returned list equals the fetched current list. -/
theorem removeChange_filter_spec (storyId changeId : String)
    (current : List Change) (s : AppState)
    (hsel : selectChangesSingle s.remote storyId = some current) :
    (removeChange storyId changeId true true s).returned =
      some (current.filter (fun c => c.id ≠ changeId)) ∧
    (removeChange storyId changeId true true s).state.remote =
      updateStoreChanges s.remote storyId
        (current.filter (fun c => c.id ≠ changeId)) ∧
    (current.filter (fun c => c.id ≠ changeId)).Sublist current ∧
    ((∀ c ∈ current, c.id ≠ changeId) →
      (removeChange storyId changeId true true s).returned = some current) := by
  have hres : removeChange storyId changeId true true s =
      ⟨{ remote := updateStoreChanges s.remote storyId
           (current.filter (fun c => c.id ≠ changeId))
         userStories := s.userStories.map (fun story =>
           if story.id = storyId then
             { story with changes := current.filter (fun c => c.id ≠ changeId) }
           else story)
         errorMessage := s.errorMessage },
       some (current.filter (fun c => c.id ≠ changeId)), 2⟩ := by
    unfold removeChange
    rw [if_pos rfl, hsel]
    rfl
  refine ⟨?_, ?_, List.filter_sublist current, ?_⟩
  · rw [hres]
  · rw [hres]
  · intro hnomatch
    rw [hres]
    have : current.filter (fun c => c.id ≠ changeId) = current := by
      rw [List.filter_eq_self]
      intro c hc
      simpa using hnomatch c hc
    rw [this]

/-- Witness for C4: removing the id of changeZero from roundTripState
returns the empty list, and removing an id present nowhere returns the
fetched list unchanged. -/
theorem removeChange_filter_spec_witness :
    (removeChange "s2" "100" true true roundTripState).returned = some [] ∧
    (removeChange "s2" "zzz" true true roundTripState).returned =
      some [changeZero] := by
  constructor
  · have h := (removeChange_filter_spec "s2" "100" [changeZero]
      roundTripState rfl).1
    rw [h]
    decide
  · exact (removeChange_filter_spec "s2" "zzz" [changeZero]
      roundTripState rfl).2.2.2 (by decide)

/-- Helper: the value of addChange on the fully successful path, given
the result of the read step. -/
theorem addChange_eq_of_sel (storyId : String) (changeType : ChangeType)
    (d : ChangeDetails) (newId : String) (current : List Change) (s : AppState)
    (hsel : selectChangesSingle s.remote storyId = some current) :
    addChange storyId changeType d newId true true s =
      ⟨{ remote := updateStoreChanges s.remote storyId
           (current ++ [{ id := newId, type := changeType, details := d }])
         userStories := s.userStories.map (fun story =>
           if story.id = storyId then
             { story with changes := current ++
                 [{ id := newId, type := changeType, details := d }] }
           else story)
         errorMessage := s.errorMessage },
       some (current ++ [{ id := newId, type := changeType, details := d }]),
       2⟩ := by
  unfold addChange
  rw [if_pos rfl, hsel]
  rfl

/-- Helper: the value of removeChange on the fully successful path,
given the result of the read step. -/
theorem removeChange_eq_of_sel (storyId changeId : String)
    (current : List Change) (s : AppState)
    (hsel : selectChangesSingle s.remote storyId = some current) :
    removeChange storyId changeId true true s =
      ⟨{ remote := updateStoreChanges s.remote storyId
           (current.filter (fun c => c.id ≠ changeId))
         userStories := s.userStories.map (fun story =>
           if story.id = storyId then
             { story with changes := current.filter (fun c => c.id ≠ changeId) }
           else story)
         errorMessage := s.errorMessage },
       some (current.filter (fun c => c.id ≠ changeId)), 2⟩ := by
  unfold removeChange
  rw [if_pos rfl, hsel]
  rfl

/-- Helper: updating the changes of a story preserves the set of rows
matching the id filter up to that update, so a second read of the same
story sees exactly the written list. -/
theorem filter_updateStoreChanges (store : List UserStory) (storyId : String)
    (cs : List Change) (st : UserStory)
    (hsel : store.filter (fun x => x.id = storyId) = [st]) :
    (updateStoreChanges store storyId cs).filter (fun x => x.id = storyId) =
      [{ st with changes := cs }] := by
  have hstid : st.id = storyId := by
    have hmem : st ∈ store.filter (fun x => x.id = storyId) := by
      rw [hsel]
      exact List.mem_singleton.mpr rfl
    exact of_decide_eq_true (List.mem_filter.mp hmem).2
  unfold updateStoreChanges
  rw [List.filter_map]
  have hpf : ((fun x : UserStory => decide (x.id = storyId)) ∘
      (fun x : UserStory =>
        if x.id = storyId then { x with changes := cs } else x)) =
      (fun x : UserStory => decide (x.id = storyId)) := by
    funext x
    by_cases hx : x.id = storyId
    · simp [hx]
    · simp [hx]
  rw [hpf, hsel]
  simp [hstid]

/-- Helper: a second wholesale replace of the changes of the same story
overwrites the first — updating twice equals updating once with the
second list. -/
theorem updateStoreChanges_updateStoreChanges (store : List UserStory)
    (storyId : String) (cs1 cs2 : List Change) :
    updateStoreChanges (updateStoreChanges store storyId cs1) storyId cs2 =
      updateStoreChanges store storyId cs2 := by
  unfold updateStoreChanges
  rw [List.map_map]
  apply List.map_congr_left
  intro x hx
  by_cases hxid : x.id = storyId
  · simp [hxid]
  · simp [hxid]

/-- Helper: writing back to a story exactly the changes it already holds
(st being the unique row matching the id filter) leaves the store
unchanged. -/
theorem updateStoreChanges_restore (store : List UserStory) (storyId : String)
    (st : UserStory)
    (hsel : store.filter (fun x => x.id = storyId) = [st]) :
    updateStoreChanges store storyId st.changes = store := by
  unfold updateStoreChanges
  have hall : ∀ x ∈ store,
      (if x.id = storyId then { x with changes := st.changes } else x) = id x := by
    intro x hx
    by_cases hxid : x.id = storyId
    · have hxst : x = st := by
        have hmem : x ∈ store.filter (fun y => y.id = storyId) :=
          List.mem_filter.mpr ⟨hx, by simp [hxid]⟩
        rw [hsel] at hmem
        exact List.mem_singleton.mp hmem
      rw [if_pos hxid, hxst]
      rfl
    · rw [if_neg hxid]
      rfl
  rw [List.map_congr_left hall, List.map_id]

/-- C3: appending a change with a fresh id to the unique story matching
storyId and then removing that id restores the remote store — and in
particular the changes sequence of the story — to exactly its value
before the append, and the remove call returns the pre-append list. -/
theorem append_then_remove_roundTrip (storyId newId : String)
    (changeType : ChangeType) (d : ChangeDetails) (s : AppState)
    (st : UserStory)
    (hsel : s.remote.filter (fun x => x.id = storyId) = [st])
    (hfresh : ∀ c ∈ st.changes, c.id ≠ newId) :
    (removeChange storyId newId true true
      (addChange storyId changeType d newId true true s).state).returned =
      some st.changes ∧
    (removeChange storyId newId true true
      (addChange storyId changeType d newId true true s).state).state.remote =
      s.remote := by
  have hsel1 : selectChangesSingle s.remote storyId = some st.changes := by
    unfold selectChangesSingle
    rw [hsel]
  have hadd := addChange_eq_of_sel storyId changeType d newId st.changes s hsel1
  have hfilter1 := filter_updateStoreChanges s.remote storyId
    (st.changes ++ [({ id := newId, type := changeType, details := d } : Change)])
    st hsel
  have hsel2 : selectChangesSingle
      (updateStoreChanges s.remote storyId
        (st.changes ++
          [({ id := newId, type := changeType, details := d } : Change)]))
      storyId =
      some (st.changes ++
        [({ id := newId, type := changeType, details := d } : Change)]) := by
    unfold selectChangesSingle
    rw [hfilter1]
  have hremfilter : (st.changes ++
      [({ id := newId, type := changeType, details := d } : Change)]).filter
        (fun c => c.id ≠ newId) = st.changes := by
    rw [List.filter_append]
    have hsurv : st.changes.filter (fun c => c.id ≠ newId) = st.changes := by
      rw [List.filter_eq_self]
      intro c hc
      simpa using hfresh c hc
    have hgone : ([({ id := newId, type := changeType, details := d } : Change)]).filter
        (fun c => c.id ≠ newId) = [] := by
      simp
    rw [hsurv, hgone, List.append_nil]
  have hremote2 : updateStoreChanges
      (updateStoreChanges s.remote storyId
        (st.changes ++
          [({ id := newId, type := changeType, details := d } : Change)]))
      storyId st.changes = s.remote := by
    rw [updateStoreChanges_updateStoreChanges]
    exact updateStoreChanges_restore s.remote storyId st hsel
  rw [hadd]
  have hrem := removeChange_eq_of_sel storyId newId
    (st.changes ++ [({ id := newId, type := changeType, details := d } : Change)])
    ⟨updateStoreChanges s.remote storyId
       (st.changes ++
         [({ id := newId, type := changeType, details := d } : Change)]),
     s.userStories.map (fun story =>
       if story.id = storyId then
         { story with changes := st.changes ++
             [({ id := newId, type := changeType, details := d } : Change)] }
       else story),
     s.errorMessage⟩ hsel2
  rw [hrem]
  constructor
  · show some ((st.changes ++
      [({ id := newId, type := changeType, details := d } : Change)]).filter
        (fun c => c.id ≠ newId)) = some st.changes
    rw [hremfilter]
  · show updateStoreChanges
      (updateStoreChanges s.remote storyId
        (st.changes ++
          [({ id := newId, type := changeType, details := d } : Change)]))
      storyId
      ((st.changes ++
        [({ id := newId, type := changeType, details := d } : Change)]).filter
        (fun c => c.id ≠ newId)) = s.remote
    rw [hremfilter, hremote2]

/-- Witness for C3: appending a fresh change to storyWithChange and then
removing it returns the original one-change list and restores the store. -/
theorem append_then_remove_roundTrip_witness :
    (removeChange "s2" "999" true true
      (addChange "s2" .Profile sampleProfileDetails "999" true true
        roundTripState).state).returned = some [changeZero] ∧
    (removeChange "s2" "999" true true
      (addChange "s2" .Profile sampleProfileDetails "999" true true
        roundTripState).state).state.remote = [storyWithChange] := by
  have h := append_then_remove_roundTrip "s2" "999" .Profile
    sampleProfileDetails roundTripState storyWithChange (by decide) (by decide)
  exact h

end DT
